import Mathlib

/-!
Verification of the shttp router/middleware/path-parameter core.

The Go sources are shallowly embedded: Go strings are Lean `String`,
`map[string]string` is an association list with write-over semantics
(`mapSet` / `mapGet`), the request context value stored under the
package-private `pathParamsKey` is modelled by the `params` field of
`Request` (outer `Option` = a value is attached, inner `Option` = the
attached map is nil or not, mirroring the `ok && params != nil` checks),
and the response writer is a pure state record.  Handlers are functions
from (context, writer, request) to (writer, optional error), exactly the
Go `Handler` signature with the writer state threaded explicitly.
-/

/-- Models Go `strings.Split(s, "/")` on the character list: splits on every
occurrence of the separator; the empty string yields `[[]]`, matching
`strings.Split("", "/") == [""]`. -/
def splitOnChar (c : Char) : List Char → List (List Char)
  | [] => [[]]
  | x :: xs =>
    let rest := splitOnChar c xs
    if x = c then [] :: rest
    else
      match rest with
      | r :: rs => (x :: r) :: rs
      | [] => [[x]]

/-- Models Go `strings.Trim(s, "/")`: removes all leading and trailing
slash characters. -/
def trimSlashes (s : String) : String :=
  ⟨((s.toList.dropWhile (fun c => c = '/')).reverse.dropWhile (fun c => c = '/')).reverse⟩

/-- The opening-brace character, written via its code point. -/
def braceOpen : Char := Char.ofNat 123

/-- The closing-brace character, written via its code point. -/
def braceClose : Char := Char.ofNat 125

/-- Models Go `strings.HasPrefix(s, c)` for a one-character cutset. -/
def listStartsWith (l : List Char) (c : Char) : Bool :=
  match l with
  | [] => false
  | x :: _ => x = c

/-- Models Go `strings.HasSuffix(s, c)` for a one-character cutset. -/
def listEndsWith (l : List Char) (c : Char) : Bool :=
  match l.getLast? with
  | some x => x = c
  | none => false

/-- A pattern segment is a placeholder when it starts with an opening brace
and ends with a closing brace, as in `strings.HasPrefix(ps, braceOpen) &&
strings.HasSuffix(ps, braceClose)` in `extractPathParams`
(src/unnamed/part_016 line 81). -/
def isPlaceholderSeg (s : String) : Bool :=
  listStartsWith s.toList braceOpen && listEndsWith s.toList braceClose

/-- Models the key extraction `strings.TrimSuffix(strings.TrimPrefix(ps,
braceOpen), braceClose)` of src/unnamed/part_016 line 82: drop one leading
opening brace when present, then one trailing closing brace when present. -/
def paramKey (s : String) : String :=
  let l := s.toList
  let l := if listStartsWith l braceOpen then l.drop 1 else l
  let l := if listEndsWith l braceClose then l.dropLast else l
  ⟨l⟩

/-- The segment list of a pattern or path: trim leading/trailing slashes and
split on the slash, as in src/unnamed/part_016 lines 70 and 71. -/
def segs (s : String) : List String :=
  (splitOnChar '/' (trimSlashes s).toList).map (fun l => ⟨l⟩)

/-- Go `map[string]string` contents, as an association list. -/
abbrev PMap := List (String × String)

/-- Models Go map assignment `m[k] = v`: overwrite the binding of `k` when
present, otherwise append it. -/
def mapSet : PMap → String → String → PMap
  | [], k, v => [(k, v)]
  | (k', v') :: rest, k, v =>
    if k' = k then (k, v) :: rest else (k', v') :: mapSet rest k v

/-- Models Go map read `m[k]`: the bound value, or the zero value (the empty
string) when the key is absent. -/
def mapGet : PMap → String → String
  | [], _ => ""
  | (k', v') :: rest, k => if k' = k then v' else mapGet rest k

/-- Key membership with value, used to state key absence. -/
def mapLookup : PMap → String → Option String
  | [], _ => none
  | (k', v') :: rest, k => if k' = k then some v' else mapLookup rest k

/-- The binding loop of `extractPathParams` (src/unnamed/part_016 lines
78-85): walk the pattern segments and the path segments in step; a
placeholder pattern segment binds its key to the path segment, a literal
pattern segment binds nothing (the source performs no comparison on it). -/
def bindParams : PMap → List String → List String → PMap
  | params, ps :: pr, a :: ar =>
    if isPlaceholderSeg ps then bindParams (mapSet params (paramKey ps) a) pr ar
    else bindParams params pr ar
  | params, _, _ => params

/-- Models `extractPathParams(pattern, path)` of src/unnamed/part_016 lines
68-88: trim and split both strings; return nil (`none`) when the segment
counts differ, otherwise the (possibly empty, non-nil) map produced by the
binding loop. -/
def extractPathParams (pattern path : String) : Option PMap :=
  let pSegs := segs pattern
  let aSegs := segs path
  if pSegs.length ≠ aSegs.length then none
  else some (bindParams [] pSegs aSegs)

/-- The request-context value stored under `pathParamsKey`: `none` = no
value attached; `some none` = a nil map attached; `some (some m)` = a
non-nil map attached.  Mirrors the two-step check `params, ok := ...;
ok && params != nil`. -/
abbrev ReqContext := Option (Option PMap)

/-- An inbound `*http.Request`, restricted to the fields the verified code
reads: the method, the URL path, and the context value under
`pathParamsKey`. -/
structure Request where
  method : String
  url : String
  params : ReqContext
deriving DecidableEq, Repr

/-- Models `SetPathValues` (src/unnamed/part_016 lines 33-39): a nil map is
a no-op, otherwise attach the map to the request context under
`pathParamsKey`, replacing any previous value. -/
def SetPathValues (r : Request) (params : Option PMap) : Request :=
  match params with
  | none => r
  | some m => { r with params := some (some m) }

/-- Models `SetPathValue` (src/unnamed/part_016 lines 43-56): start from a
copy of the attached map when one is attached and non-nil (in this pure
model the copy of a map is the map itself), otherwise from an empty map;
assign the key; delegate to `SetPathValues`. -/
def SetPathValue (r : Request) (key value : String) : Request :=
  let params : PMap :=
    match r.params with
    | some (some existing) => existing
    | _ => []
  SetPathValues r (some (mapSet params key value))

/-- Models `PathValue` (src/unnamed/part_016 lines 59-64): the bound value
when a non-nil map is attached, the empty string otherwise. -/
def PathValue (r : Request) (key : String) : String :=
  match r.params with
  | some (some params) => mapGet params key
  | _ => ""

/-- The state of the underlying `http.ResponseWriter` handed to the route
closure: the list of status lines actually written to the wire (in order)
and the accumulated body bytes. -/
structure RawWriter where
  statusWrites : List Nat
  body : String
deriving DecidableEq, Repr

/-- Models a call `w.WriteHeader(status)` on the underlying writer: the
status line goes out on the wire. -/
def RawWriter.writeHeader (w : RawWriter) (status : Nat) : RawWriter :=
  { w with statusWrites := w.statusWrites ++ [status] }

/-- Models a call `w.Write(b)` on the underlying writer: the bytes are
appended to the body. -/
def RawWriter.write (w : RawWriter) (b : String) : RawWriter :=
  { w with body := w.body ++ b }

/-- Models `http.Error(w, msg, code)` from the standard library: write the
status code, then the message followed by a newline as the body. -/
def httpError (w : RawWriter) (msg : String) (code : Nat) : RawWriter :=
  { statusWrites := w.statusWrites ++ [code], body := w.body ++ msg ++ "\n" }

/-- Models the `responseWriter` wrapper of src/middleware.go lines 249-253:
the embedded underlying writer, the recorded status, and the
`wroteHeader` flag.  The Go zero values of the latter two are 0 and
false. -/
structure responseWriter where
  ResponseWriter : RawWriter
  status : Nat
  wroteHeader : Bool
deriving DecidableEq, Repr

/-- Models `responseWriter.WriteHeader` (src/middleware.go lines 255-262):
a no-op once `wroteHeader` is set; otherwise record the status, forward it
to the underlying writer, and set the flag. -/
def responseWriter.WriteHeader (w : responseWriter) (status : Nat) : responseWriter :=
  if w.wroteHeader then w
  else
    { w with
      status := status
      ResponseWriter := w.ResponseWriter.writeHeader status
      wroteHeader := true }

/-- Models `responseWriter.Write` (src/middleware.go lines 264-269): write
the 200 header first when no header has been written, then forward the
bytes to the underlying writer. -/
def responseWriter.Write (w : responseWriter) (b : String) : responseWriter :=
  let w := if ¬ w.wroteHeader then w.WriteHeader 200 else w
  { w with ResponseWriter := w.ResponseWriter.write b }

/-- Models the `HTTPError` struct of src/unnamed/part_015 lines 4-7. -/
structure HTTPError where
  Message : String
  StatusCode : Nat
deriving DecidableEq, Repr

/-- A Go `error` value as seen by the dispatch code: either the structured
`HTTPError` (the type assertion `err.(HTTPError)` succeeds) or any other
error, carrying only its `Error()` string. -/
inductive GoError where
  | httpErr : HTTPError → GoError
  | other : String → GoError
deriving DecidableEq, Repr

/-- Models `err.Error()`: `HTTPError.Error` returns the message
(src/unnamed/part_015 lines 10-12); for any other error it is the error's
textual description. -/
def GoError.errorMessage : GoError → String
  | GoError.httpErr e => e.Message
  | GoError.other s => s

/-- The status code the error-translation branch of `Router.Handle`
(src/router.go lines 59-63) chooses: the `HTTPError`'s own status code
when the type assertion succeeds, 500 otherwise. -/
def errStatusCode : GoError → Nat
  | GoError.httpErr e => e.StatusCode
  | GoError.other _ => 500

/-- The `Handler` type of src/middleware.go line 15, with the writer state
threaded explicitly: `func(ctx, w, r) error` becomes a function returning
the final writer state and the optional error. -/
abbrev Handler := ReqContext → responseWriter → Request → responseWriter × Option GoError

/-- The `Middleware` type of src/middleware.go line 18. -/
abbrev Middleware := Handler → Handler

/-- The loop of `applyMiddleware` (src/router.go lines 34-37): for
`i := len(mws)-1; i >= 0; i--`, reassign `result = mws[i](result)`.
`applyLoop mws k result` runs the iterations with `i = k-1` down to 0. -/
def applyLoop (mws : List Middleware) : Nat → Handler → Handler
  | 0, result => result
  | Nat.succ i, result => applyLoop mws i (mws.getD i id result)

/-- Models `Router.applyMiddleware` (src/router.go lines 31-39), with the
router's middleware slice passed explicitly. -/
def applyMiddleware (mws : List Middleware) (handler : Handler) : Handler :=
  applyLoop mws mws.length handler

/-- Models the request-handling closure that `Router.Handle` registers with
the mux (src/router.go lines 43-66), for a request the platform mux has
already resolved to this route: reject a method mismatch with
`http.Error(w, "Method not allowed", 405)` before touching middleware or
handler; otherwise take `ctx := req.Context()` (the closure performs no
path-parameter injection — there is no `SetPathValues` or
`extractPathParams` call in src/router.go), compose the middleware, run
the composed handler on a fresh `responseWriter` wrapping `w`, and
translate a returned error through `http.Error` on `w` only when the
wrapper has not yet written a header. -/
def handleClosure (mws : List Middleware) (method : String) (handler : Handler)
    (w : RawWriter) (req : Request) : RawWriter :=
  if req.method ≠ method then
    httpError w "Method not allowed" 405
  else
    match applyMiddleware mws handler req.params
        { ResponseWriter := w, status := 0, wroteHeader := false } req with
    | (rw, some err) =>
      if ¬ rw.wroteHeader then
        match err with
        | GoError.httpErr httpE => httpError rw.ResponseWriter httpE.Message httpE.StatusCode
        | GoError.other _ => httpError rw.ResponseWriter err.errorMessage 500
      else rw.ResponseWriter
    | (rw, none) => rw.ResponseWriter

/-- The `Router` struct of src/router.go lines 8-14: the middleware stack,
and the mux's registration table.  Each registered route keeps its pattern
and the closure `Handle` registered; the closure reads the router's
middleware slice at dispatch time (it captures the `*Router` pointer in
Go), so it is stored as a function of the current middleware list. -/
structure Router where
  middleware : List Middleware
  routes : List (String × (List Middleware → RawWriter → Request → RawWriter))

/-- Models `Router.Handle` (src/router.go lines 42-67): register with the
mux the closure for this (method, handler) pair. -/
def Router.Handle (r : Router) (method path : String) (handler : Handler) : Router :=
  { r with
    routes := r.routes ++ [(path, fun mws w req => handleClosure mws method handler w req)] }

/-- Models `Router.Use` (src/router.go lines 116-118): append the given
middleware to the stack. -/
def Router.Use (r : Router) (mws : List Middleware) : Router :=
  { r with middleware := r.middleware ++ mws }

/-- Dispatch the request through the route registered at index `i`,
handing the stored closure the router's middleware stack as it is now;
when no such route exists the platform mux answers 404 with its default
body. -/
def Router.dispatch (r : Router) (i : Nat) (w : RawWriter) (req : Request) : RawWriter :=
  match r.routes.get? i with
  | some route => route.2 r.middleware w req
  | none => httpError w "404 page not found" 404

/-- The handler of the end-to-end scenario (and of the repository's own
TestIntegration_ServerWithMiddleware, src/integration_test.go lines
32-37): write status 200 and the value `PathValue(r, "name")` as the
body. -/
def helloHandler : Handler := fun _ w r =>
  let name := PathValue r "name"
  let w := w.WriteHeader 200
  let w := w.Write name
  (w, none)

/-- The request `GET /hello/alice`, as the mux delivers it to the route
closure: no value is attached under `pathParamsKey`. -/
def reqAlice : Request := { method := "GET", url := "/hello/alice", params := none }

/-- A fresh underlying writer: nothing sent yet. -/
def emptyWriter : RawWriter := { statusWrites := [], body := "" }

/-- A middleware that records execution order: it writes an opening tag
before calling `next` and a closing tag after `next` returns. -/
def traceMW (tag : String) : Middleware := fun next => fun ctx w r =>
  let w1 := w.Write ("(" ++ tag)
  let (w2, e) := next ctx w1 r
  (w2.Write (tag ++ ")"), e)

/-- A terminal handler that just writes "H". -/
def traceBase : Handler := fun _ w _ => (w.Write "H", none)

/-- Written from the spec's words, for comparison with the source's
`extractPathParams`: the spec's match condition holds iff the segment
counts are equal and every literal (non-placeholder) pattern segment is
byte-equal to the path segment at the same position. -/
def specLiteralMatch (pattern path : String) : Bool :=
  let ps := segs pattern
  let qs := segs path
  (ps.length == qs.length)
    && (ps.zip qs).all (fun pq => isPlaceholderSeg pq.1 || pq.1 == pq.2)

theorem mapGet_mapSet_self (m : PMap) (k v : String) : mapGet (mapSet m k v) k = v := by
  induction m with
  | nil => simp [mapSet, mapGet]
  | cons kv rest ih =>
    by_cases hk : kv.1 = k
    · simp [mapSet, mapGet, hk]
    · simp [mapSet, mapGet, hk, ih]

theorem mapGet_mapSet_ne (m : PMap) (k k' v : String) (h : k' ≠ k) :
    mapGet (mapSet m k' v) k = mapGet m k := by
  induction m with
  | nil => simp [mapSet, mapGet, h]
  | cons kv rest ih =>
    by_cases hk : kv.1 = k'
    · simp [mapSet, mapGet, hk, h]
    · simp [mapSet, mapGet, hk, ih]

theorem mapGet_eq_empty (m : PMap) (k : String) (h : mapLookup m k = none) :
    mapGet m k = "" := by
  induction m with
  | nil => rfl
  | cons kv rest ih =>
    by_cases hk : kv.1 = k
    · simp [mapLookup, hk] at h
    · simp [mapLookup, hk] at h
      simp [mapGet, hk, ih h]

theorem pathValue_setPathValue_self (r : Request) (k v : String) :
    PathValue (SetPathValue r k v) k = v := by
  rcases r with ⟨m, u, p⟩
  rcases p with _ | (_ | mp) <;>
    simp [SetPathValue, SetPathValues, PathValue, mapGet_mapSet_self]

theorem pathValue_setPathValue_ne (r : Request) (k k' v : String) (h : k' ≠ k) :
    PathValue (SetPathValue r k' v) k = PathValue r k := by
  rcases r with ⟨m, u, p⟩
  rcases p with _ | (_ | mp) <;>
    simp [SetPathValue, SetPathValues, PathValue, mapGet_mapSet_ne _ _ _ _ h, mapGet, mapSet, h]

theorem applyLoop_cons (m : Middleware) (rest : List Middleware) (k : Nat) (hnd : Handler) :
    applyLoop (m :: rest) (k + 1) hnd = m (applyLoop rest k hnd) := by
  induction k generalizing hnd with
  | zero => rfl
  | succ n ih =>
    have h1 : applyLoop (m :: rest) (n + 1 + 1) hnd
        = applyLoop (m :: rest) (n + 1) (rest.getD n id hnd) := rfl
    rw [h1, ih]
    rfl

theorem applyMiddleware_cons (m : Middleware) (rest : List Middleware) (hnd : Handler) :
    applyMiddleware (m :: rest) hnd = m (applyMiddleware rest hnd) := by
  simp [applyMiddleware, applyLoop_cons]

theorem applyMiddleware_eq_foldr (mws : List Middleware) (hnd : Handler) :
    applyMiddleware mws hnd = mws.foldr (fun mw acc => mw acc) hnd := by
  induction mws with
  | nil => rfl
  | cons m rest ih => rw [applyMiddleware_cons, ih]; rfl

theorem getQ_append_singleton {α : Type} (l : List α) (e : α) :
    (l ++ [e]).get? l.length = some e := by
  induction l with
  | nil => rfl
  | cons x xs ih => simp [ih]

theorem bindParams_get_of_no_key (ps : List String) (qs : List String) (params : PMap)
    (k : String)
    (h : ∀ j t, ps.get? j = some t → isPlaceholderSeg t = true → paramKey t ≠ k) :
    mapGet (bindParams params ps qs) k = mapGet params k := by
  induction ps generalizing qs params with
  | nil => cases qs <;> rfl
  | cons x pr ih =>
    cases qs with
    | nil => rfl
    | cons y ar =>
      by_cases hx : isPlaceholderSeg x
      · have hk : paramKey x ≠ k := h 0 x rfl hx
        simp only [bindParams, hx, if_pos]
        rw [ih ar _ (fun j t hj => h (j + 1) t (by simpa using hj))]
        exact mapGet_mapSet_ne _ _ _ _ hk
      · simp only [bindParams, hx]
        simp only [Bool.false_eq_true, if_false]
        exact ih ar _ (fun j t hj => h (j + 1) t (by simpa using hj))

theorem bindParams_get_placeholder (i : Nat) (ps qs : List String) (params : PMap)
    (s a k : String)
    (hs : ps.get? i = some s) (ha : qs.get? i = some a)
    (hp : isPlaceholderSeg s = true) (hk : paramKey s = k)
    (hlast : ∀ j t, i < j → ps.get? j = some t → isPlaceholderSeg t = true → paramKey t ≠ k) :
    mapGet (bindParams params ps qs) k = a := by
  induction i generalizing ps qs params with
  | zero =>
    cases ps with
    | nil => simp at hs
    | cons x pr =>
      cases qs with
      | nil => simp at ha
      | cons y ar =>
        obtain rfl : x = s := by simpa using hs
        obtain rfl : y = a := by simpa using ha
        simp only [bindParams, hp, if_pos, hk]
        rw [bindParams_get_of_no_key pr ar _ k
          (fun j t hj hpt => hlast (j + 1) t (Nat.succ_pos j) (by simpa using hj) hpt)]
        exact mapGet_mapSet_self _ _ _
  | succ n ih =>
    cases ps with
    | nil => simp at hs
    | cons x pr =>
      cases qs with
      | nil => simp at ha
      | cons y ar =>
        have hs' : pr.get? n = some s := by simpa using hs
        have ha' : ar.get? n = some a := by simpa using ha
        have hlast' : ∀ j t, n < j → pr.get? j = some t → isPlaceholderSeg t = true →
            paramKey t ≠ k :=
          fun j t hj hg hpt => hlast (j + 1) t (Nat.succ_lt_succ hj) (by simpa using hg) hpt
        by_cases hx : isPlaceholderSeg x
        · simp only [bindParams, hx, if_pos]
          exact ih pr ar _ hs' ha' hlast'
        · simp only [bindParams, hx, Bool.false_eq_true, if_false]
          exact ih pr ar _ hs' ha' hlast'

/-- Claim C1 (evaluation of the code at the failing input): with GET
registered for "/hello/name-placeholder" and the handler of the repository's
own integration test (write status 200, then `PathValue(r, "name")` as the
body), the request `GET /hello/alice` gets status 200 with EMPTY body, not
"alice": the closure `Router.Handle` registers never calls `SetPathValues`
or `extractPathParams`, so no binding is attached and `PathValue` returns
the empty string.  This contradicts the claim and the repository's own
TestIntegration_ServerWithMiddleware. -/
theorem c1_pathvalue_not_injected :
    handleClosure [] "GET" helloHandler emptyWriter reqAlice
      = { statusWrites := [200], body := "" }
    ∧ (handleClosure [] "GET" helloHandler emptyWriter reqAlice).body ≠ "alice" :=
  ⟨by decide, by decide⟩

/-- Claim C2, counterexample: for pattern "/users/x" and path "/users/y"
the segment counts agree but the literal segments differ, yet
`extractPathParams` still reports a match (a non-nil binding map): the
source never compares literal segments, so the claimed iff fails. -/
theorem c2_literal_mismatch_counterexample :
    (extractPathParams "/users/x" "/users/y").isSome = true
    ∧ specLiteralMatch "/users/x" "/users/y" = false := by decide

/-- Claim C2 as amended: the matcher reports a match (returns a non-nil
binding map) iff the trimmed segment counts of pattern and path are equal
— literal segments are never compared — and on a match each placeholder
segment binds its identifier to the path segment at the same position
(the last such placeholder wins for a repeated identifier). -/
theorem c2_match_iff_segment_counts (P Q : String) :
    ((extractPathParams P Q).isSome ↔ (segs P).length = (segs Q).length)
    ∧ (∀ m i s a k, extractPathParams P Q = some m →
        (segs P).get? i = some s → (segs Q).get? i = some a →
        isPlaceholderSeg s = true → paramKey s = k →
        (∀ j t, i < j → (segs P).get? j = some t → isPlaceholderSeg t = true →
          paramKey t ≠ k) →
        mapGet m k = a) := by
  constructor
  · unfold extractPathParams
    by_cases hl : (segs P).length = (segs Q).length
    · simp [hl]
    · simp [hl]
  · intro m i s a k hm hs ha hp hk hlast
    unfold extractPathParams at hm
    by_cases hl : (segs P).length = (segs Q).length
    · rw [if_neg (by simp [hl])] at hm
      obtain rfl : bindParams [] (segs P) (segs Q) = m := by simpa using hm
      exact bindParams_get_placeholder i (segs P) (segs Q) [] s a k hs ha hp hk hlast
    · simp [hl] at hm

/-- Witness for the amended C2 at pattern "/users/{id}" and path
"/users/42". -/
theorem c2_match_iff_witness :
    ((extractPathParams "/users/{id}" "/users/42").isSome
      ↔ (segs "/users/{id}").length = (segs "/users/42").length)
    ∧ mapGet [("id", "42")] "id" = "42" := by
  refine ⟨(c2_match_iff_segment_counts "/users/{id}" "/users/42").1, ?_⟩
  refine (c2_match_iff_segment_counts "/users/{id}" "/users/42").2
    [("id", "42")] 1 "{id}" "42" "id" (by decide) (by decide) (by decide)
    (by decide) (by decide) ?_
  intro j t hj hg hpt
  exfalso
  have h2 : (segs "/users/{id}").length ≤ j := by
    have hlen : (segs "/users/{id}").length = 2 := by decide
    omega
  rw [List.get?_len_le h2] at hg
  exact Option.noConfusion hg

/-- Claim C3: `applyMiddleware` returns exactly the composition
M1(M2(...Mn(H)...)) — the first-registered middleware is the outermost
wrapper; concretely, tracing middlewares show the first one's pre-next
write happens first and its post-next write happens last. -/
theorem c3_middleware_composition (mws : List Middleware) (hnd : Handler)
    (m : Middleware) (rest : List Middleware) :
    applyMiddleware mws hnd = mws.foldr (fun mw acc => mw acc) hnd
    ∧ applyMiddleware (m :: rest) hnd = m (applyMiddleware rest hnd)
    ∧ ((applyMiddleware [traceMW "1", traceMW "2"] traceBase) none
        { ResponseWriter := emptyWriter, status := 0, wroteHeader := false }
        reqAlice).1.ResponseWriter.body = "(1(2H2)1)" :=
  ⟨applyMiddleware_eq_foldr mws hnd, applyMiddleware_cons m rest hnd, by decide⟩

/-- Claim C4: when the composed handler returns a non-nil error and the
tracked writer has not written a header, the dispatch writes the
`HTTPError`'s status code with its message as the body (via `http.Error`,
which appends a newline), and for any other error it writes 500 with the
error's textual description as the body. -/
theorem c4_error_translation (mws : List Middleware) (method : String) (handler : Handler)
    (w : RawWriter) (req : Request) (rw : responseWriter) (e : GoError)
    (hm : req.method = method)
    (hrun : applyMiddleware mws handler req.params
        { ResponseWriter := w, status := 0, wroteHeader := false } req = (rw, some e))
    (hnw : rw.wroteHeader = false) :
    handleClosure mws method handler w req
      = { statusWrites := rw.ResponseWriter.statusWrites ++ [errStatusCode e],
          body := rw.ResponseWriter.body ++ e.errorMessage ++ "\n" } := by
  unfold handleClosure
  rw [if_neg (by simp [hm]), hrun]
  cases e with
  | httpErr he => simp [hnw, httpError, GoError.errorMessage, errStatusCode]
  | other s => simp [hnw, httpError, GoError.errorMessage, errStatusCode]

/-- Witness for C4: a handler returning `NewHTTPError(400, "bad input")`
without writing produces exactly 400 with body "bad input\n", and a
handler returning a plain error produces 500 with the error text as
body. -/
theorem c4_error_translation_witness :
    handleClosure [] "GET"
        (fun _ w _ => (w, some (GoError.httpErr ⟨"bad input", 400⟩))) emptyWriter reqAlice
      = { statusWrites := [400], body := "bad input\n" }
    ∧ handleClosure [] "GET"
        (fun _ w _ => (w, some (GoError.other "boom"))) emptyWriter reqAlice
      = { statusWrites := [500], body := "boom\n" } := by
  constructor
  · have h := c4_error_translation [] "GET"
      (fun _ w _ => (w, some (GoError.httpErr ⟨"bad input", 400⟩))) emptyWriter reqAlice
      { ResponseWriter := emptyWriter, status := 0, wroteHeader := false }
      (GoError.httpErr ⟨"bad input", 400⟩) rfl rfl rfl
    rw [h]; decide
  · have h := c4_error_translation [] "GET"
      (fun _ w _ => (w, some (GoError.other "boom"))) emptyWriter reqAlice
      { ResponseWriter := emptyWriter, status := 0, wroteHeader := false }
      (GoError.other "boom") rfl rfl rfl
    rw [h]; decide

/-- Claim C5: on the response-state tracker, the first WriteHeader records
the status and forwards exactly one status write to the underlying
writer; any later WriteHeader is a no-op; a Write before any WriteHeader
first sends status 200. -/
theorem c5_writeheader_idempotent (w : responseWriter) (s s' : Nat) (b : String)
    (h : w.wroteHeader = false) :
    (w.WriteHeader s).status = s
    ∧ (w.WriteHeader s).wroteHeader = true
    ∧ (w.WriteHeader s).ResponseWriter.statusWrites = w.ResponseWriter.statusWrites ++ [s]
    ∧ (∀ v : responseWriter, v.wroteHeader = true → v.WriteHeader s' = v)
    ∧ (w.WriteHeader s).WriteHeader s' = w.WriteHeader s
    ∧ (w.Write b).status = 200
    ∧ (w.Write b).ResponseWriter.statusWrites = w.ResponseWriter.statusWrites ++ [200]
    ∧ (w.Write b).ResponseWriter.body = w.ResponseWriter.body ++ b := by
  refine ⟨?_, ?_, ?_, ?_, ?_, ?_, ?_, ?_⟩
  · simp [responseWriter.WriteHeader, h]
  · simp [responseWriter.WriteHeader, h]
  · simp [responseWriter.WriteHeader, h, RawWriter.writeHeader]
  · intro v hv; simp [responseWriter.WriteHeader, hv]
  · simp [responseWriter.WriteHeader, h]
  · simp [responseWriter.Write, responseWriter.WriteHeader, h]
  · simp [responseWriter.Write, responseWriter.WriteHeader, h,
      RawWriter.writeHeader, RawWriter.write]
  · simp [responseWriter.Write, responseWriter.WriteHeader, h,
      RawWriter.writeHeader, RawWriter.write]

/-- Witness for C5 on a fresh tracker: 201 is recorded and sent once, a
second WriteHeader with 404 changes nothing (also on an
already-written tracker), and a bare Write sends 200 first. -/
theorem c5_writeheader_witness :
    ((responseWriter.WriteHeader ⟨emptyWriter, 0, false⟩ 201).status = 201)
    ∧ (responseWriter.WriteHeader (responseWriter.WriteHeader ⟨emptyWriter, 0, false⟩ 201) 404
        = responseWriter.WriteHeader ⟨emptyWriter, 0, false⟩ 201)
    ∧ (responseWriter.WriteHeader ⟨emptyWriter, 7, true⟩ 404 = ⟨emptyWriter, 7, true⟩)
    ∧ ((responseWriter.Write ⟨emptyWriter, 0, false⟩ "x").ResponseWriter.statusWrites
        = [200]) := by
  have h := c5_writeheader_idempotent ⟨emptyWriter, 0, false⟩ 201 404 "x" rfl
  refine ⟨h.1, h.2.2.2.2.1, h.2.2.2.1 ⟨emptyWriter, 7, true⟩ rfl, ?_⟩
  have h7 := h.2.2.2.2.2.2.1
  simpa [emptyWriter] using h7

/-- Claim C6: a request resolved to a registered route whose method differs
is answered 405 with body "Method not allowed\n", independently of the
middleware stack and the handler — neither is invoked (the result is the
same fixed writer state for every middleware list and every handler). -/
theorem c6_method_mismatch (mws : List Middleware) (method : String) (handler : Handler)
    (w : RawWriter) (req : Request) (hm : req.method ≠ method) :
    handleClosure mws method handler w req
      = { statusWrites := w.statusWrites ++ [405], body := w.body ++ "Method not allowed\n" } := by
  unfold handleClosure
  rw [if_pos hm]
  simp [httpError, String.append_assoc]

/-- Witness for C6: `POST /hello/alice` against the GET route. -/
theorem c6_method_mismatch_witness :
    handleClosure [] "GET" helloHandler emptyWriter ⟨"POST", "/hello/alice", none⟩
      = { statusWrites := [405], body := "Method not allowed\n" } := by
  have h := c6_method_mismatch [] "GET" helloHandler emptyWriter
    ⟨"POST", "/hello/alice", none⟩ (by decide)
  rw [h]; decide

/-- Claim C7: when the composed handler returns a non-nil error after the
tracked writer has already written a header, the dispatch performs no
further write: the final wire state is exactly the state the handler left
behind. -/
theorem c7_error_swallowed (mws : List Middleware) (method : String) (handler : Handler)
    (w : RawWriter) (req : Request) (rw : responseWriter) (e : GoError)
    (hm : req.method = method)
    (hrun : applyMiddleware mws handler req.params
        { ResponseWriter := w, status := 0, wroteHeader := false } req = (rw, some e))
    (hw : rw.wroteHeader = true) :
    handleClosure mws method handler w req = rw.ResponseWriter := by
  unfold handleClosure
  rw [if_neg (by simp [hm]), hrun]
  simp [hw]

/-- Witness for C7: a handler that writes "started" (which sends the 200
header) and then returns an error leaves the response at 200/"started";
the error is swallowed. -/
theorem c7_error_swallowed_witness :
    handleClosure [] "GET"
        (fun _ w _ => (w.Write "started", some (GoError.other "boom"))) emptyWriter reqAlice
      = { statusWrites := [200], body := "started" } := by
  have h := c7_error_swallowed [] "GET"
    (fun _ w _ => (w.Write "started", some (GoError.other "boom"))) emptyWriter reqAlice
    (responseWriter.Write { ResponseWriter := emptyWriter, status := 0, wroteHeader := false }
      "started")
    (GoError.other "boom") rfl rfl (by decide)
  rw [h]; decide

/-- Claim C8: merging single keys preserves previously attached keys: after
attaching "1" under `a` and then "2" under a distinct key `b`, reading `a`
yields "1" and reading `b` yields "2"; and reads through the earlier
request value still yield "1" (the source copies the map instead of
mutating it; in this pure embedding the earlier value is untouched by
construction). -/
theorem c8_attachone_roundtrip (r : Request) (a b : String) (hab : a ≠ b) :
    PathValue (SetPathValue (SetPathValue r a "1") b "2") a = "1"
    ∧ PathValue (SetPathValue (SetPathValue r a "1") b "2") b = "2"
    ∧ PathValue (SetPathValue r a "1") a = "1" := by
  refine ⟨?_, ?_, ?_⟩
  · rw [pathValue_setPathValue_ne _ _ _ _ (Ne.symm hab)]
    exact pathValue_setPathValue_self _ _ _
  · exact pathValue_setPathValue_self _ _ _
  · exact pathValue_setPathValue_self _ _ _

/-- Witness for C8 with keys "a" and "b" on a bare request. -/
theorem c8_attachone_witness :
    PathValue (SetPathValue (SetPathValue ⟨"GET", "/", none⟩ "a" "1") "b" "2") "a" = "1"
    ∧ PathValue (SetPathValue (SetPathValue ⟨"GET", "/", none⟩ "a" "1") "b" "2") "b" = "2"
    ∧ PathValue (SetPathValue ⟨"GET", "/", none⟩ "a" "1") "a" = "1" :=
  c8_attachone_roundtrip ⟨"GET", "/", none⟩ "a" "b" (by decide)

/-- Claim C9: `PathValue` is total and returns the empty string when no
mapping is attached to the request context, when a nil mapping is
attached, and when the key is absent from the attached mapping. -/
theorem c9_pathvalue_total (r : Request) (key : String) :
    (r.params = none → PathValue r key = "")
    ∧ (r.params = some none → PathValue r key = "")
    ∧ (∀ m, r.params = some (some m) → mapLookup m key = none → PathValue r key = "") := by
  refine ⟨?_, ?_, ?_⟩
  · intro h; simp [PathValue, h]
  · intro h; simp [PathValue, h]
  · intro m h hl
    simp only [PathValue, h]
    exact mapGet_eq_empty m key hl

/-- Witness for C9: a request with nothing attached. -/
theorem c9_pathvalue_witness : PathValue ⟨"GET", "/nope", none⟩ "k" = "" :=
  (c9_pathvalue_total ⟨"GET", "/nope", none⟩ "k").1 rfl

/-- Claim C10: because the registered closure reads the router's middleware
stack at dispatch time, a middleware appended via Use AFTER the route was
registered still wraps that route's handler: dispatching the route gives
exactly the closure with the appended stack, the same as if Use had come
first. -/
theorem c10_late_use_wraps (r0 : Router) (method pat : String) (hnd : Handler)
    (mws : List Middleware) (w : RawWriter) (req : Request) :
    Router.dispatch (Router.Use (Router.Handle r0 method pat hnd) mws)
        r0.routes.length w req
      = handleClosure (r0.middleware ++ mws) method hnd w req
    ∧ Router.dispatch (Router.Handle (Router.Use r0 mws) method pat hnd)
        r0.routes.length w req
      = handleClosure (r0.middleware ++ mws) method hnd w req := by
  constructor <;>
    simp [Router.dispatch, Router.Use, Router.Handle, getQ_append_singleton]
